import Mathlib

/-!
Shallow embedding of the currency core of `notebooks/helpers/interfaces.py`:
the `Currency`, `CurrencyFraction` and `CurrencyAmount` value types, their
registries, arithmetic, quantization and code-based serialization.

Python `Decimal` values are finite decimals; we embed them by their exact
rational value (`ℚ`).  Arithmetic (`+`, `-`, `*`, `/`, `//`) is modelled
exactly.  `Decimal.quantize` is modelled faithfully to the stdlib semantics
under the default context: it rounds with ROUND_HALF_EVEN (the default
rounding mode) and signals `InvalidOperation` when the coefficient of the
result would need more digits than the default context precision of 28,
i.e. when the rounded coefficient has absolute value at least `10 ^ 28`.
Division by a zero scalar signals `DivisionByZero` when the dividend is
nonzero and `InvalidOperation` (division undefined) when it is zero, as in
the stdlib.  Exceptions are modelled by `Except` results.

Two further behaviors of the program are modelled faithfully because
claims depend on them.  First, the currency gate of `__add__` and
`__sub__` is `self.currency == other.currency`, and pydantic v1
`BaseModel.__eq__` compares `self.dict() == other.dict()`; `Currency`
overrides `dict` to emit only the code, so the program gates on code-only
equality, embedded as equality of `Currency.dict`.  Second, the product
`amount * fraction.multiplier` of the two fraction construction paths is a
Decimal multiplication, which rounds the exact product half-to-even to the
28 significant digits of the context (`decMul`): the stdlib rounds the
product coefficient only when that coefficient has more than 28 digits,
and in exactly those cases the result value equals the exact product
rounded at the position 27 places below its adjusted exponent, while
otherwise the value is already an integer multiple of that position — so
the value-level `decRound` below agrees with the stdlib for every operand
representation.

The `precision` field is typed `int` in the source; every registry entry is
non-negative (8 or 18), so we use `ℕ`.
-/

/-- Kind of a currency: the Python enum `CurrencyType`. -/
inductive CurrencyType where
  | CRYPTO
  | FIAT
deriving DecidableEq

/-- Currency representation: the pydantic frozen model `Currency`.  The
derived `DecidableEq` is the structural all-field equality used in
specification statements; the equality the program itself applies
(pydantic `__eq__`) goes through the overridden `dict` and therefore
compares codes only. -/
structure Currency where
  code : String
  precision : ℕ
  name : String
  type : CurrencyType
  symbol : Option String := none
deriving DecidableEq

/-- Errors raised by the embedded code paths, by Python exception class:
dict lookup misses raise `KeyError`, `Currency.get_fraction` raises
`RuntimeError`, mismatched-currency arithmetic raises `TypeError` carrying
both currencies, and decimal arithmetic raises `decimal.DivisionByZero` or
`decimal.InvalidOperation`. -/
inductive Err where
  | invalidOperation
  | divisionByZero
  | keyError (key : String)
  | runtimeError (msg : String)
  | currencyMismatch (left right : Currency)
deriving DecidableEq

deriving instance DecidableEq for Except

/-- Precision of the default decimal context (`decimal.getcontext().prec`),
which the module never changes. -/
def contextPrec : ℕ := 28

/-- Round a rational to the nearest integer with ties to even: the
ROUND_HALF_EVEN rounding used by `Decimal.quantize` by default. -/
def roundHalfEven (q : ℚ) : ℤ :=
  if Int.fract q < 1 / 2 then ⌊q⌋
  else if 1 / 2 < Int.fract q then ⌊q⌋ + 1
  else if ⌊q⌋ % 2 = 0 then ⌊q⌋ else ⌊q⌋ + 1

/-- Embedding of `value.quantize(Decimal(10) ** -p)` under the default
context: round `value * 10 ^ p` half-to-even to an integer coefficient, and
signal `InvalidOperation` when that coefficient needs more than
`contextPrec` digits. -/
def quantizeDec (value : ℚ) (p : ℕ) : Except Err ℚ :=
  if (roundHalfEven (value * 10 ^ p)).natAbs < 10 ^ contextPrec then
    .ok ((roundHalfEven (value * 10 ^ p) : ℚ) / 10 ^ p)
  else .error .invalidOperation

/-- Value of rounding a nonzero decimal to the 28 significant digits of
the default context with ROUND_HALF_EVEN: round half-to-even at the
position 27 places below the adjusted exponent `Int.log 10` of the
absolute value.  The stdlib rounds a result coefficient only when it has
more than 28 digits; in those cases the result value is exactly this, and
otherwise the value is already an integer multiple of the position, so
this rounding is the identity there by `roundHalfEven_intCast`. -/
def decRound (z : ℚ) : ℚ :=
  if z = 0 then 0
  else (roundHalfEven (z * 10 ^ (27 - Int.log 10 |z|)) : ℚ) /
    10 ^ (27 - Int.log 10 |z|)

/-- Decimal multiplication under the default context: the exact product,
rounded to the 28-digit context precision. -/
def decMul (x y : ℚ) : ℚ :=
  decRound (x * y)

/-- Currency amount representation: the pydantic frozen model
`CurrencyAmount` with its two fields. -/
structure CurrencyAmount where
  currency : Currency
  amount : ℚ
deriving DecidableEq

/-- Return the minimal value that can be represented by that currency:
`Decimal("1") / (10 ** self.precision)`. -/
def Currency.minimal_value (c : Currency) : ℚ :=
  1 / 10 ^ c.precision

/-- Constructing `CurrencyAmount(amount=..., currency=...)`: the validator
`quantize_amount` replaces `amount` by
`amount.quantize(currency.minimal_value)`. -/
def CurrencyAmount.construct (currency : Currency) (amount : ℚ) :
    Except Err CurrencyAmount :=
  (quantizeDec amount currency.precision).map fun q => ⟨currency, q⟩

/-- Embedding of `Currency.__mul__` and `Currency.__rmul__` for an `int` or
`Decimal` operand (both build `CurrencyAmount(amount=Decimal(other),
currency=self)`). -/
def Currency.mul (c : Currency) (other : ℚ) : Except Err CurrencyAmount :=
  CurrencyAmount.construct c other

/-- Zero items of that currency: `0 * self`. -/
def Currency.zero (c : Currency) : Except Err CurrencyAmount :=
  c.mul 0

/-- One item of that currency: `1 * self`. -/
def Currency.one (c : Currency) : Except Err CurrencyAmount :=
  c.mul 1

/-- Return currency amount: `CurrencyAmount(amount=Decimal(amount),
currency=self)`. -/
def Currency.get_amount (c : Currency) (amount : ℚ) :
    Except Err CurrencyAmount :=
  CurrencyAmount.construct c amount

/-- Constructor for ethereum-like currencies (`ethereum_like`): precision 18,
type CRYPTO, no symbol. -/
def ethereum_like (code name : String) : Currency :=
  { code := code, precision := 18, name := name, type := .CRYPTO }

/-- The currency registry `CURRENCIES`, keyed by uppercase code.  The Python
dict maps each code to the keyword arguments of the corresponding
`Currency`; we store the resulting `Currency` values directly. -/
def CURRENCIES : List (String × Currency) :=
  [ ("USD", { code := "USD", precision := 8, name := "US Dollar",
              type := .FIAT, symbol := some "$" }),
    ("EUR", { code := "EUR", precision := 8, name := "Euro",
              type := .FIAT, symbol := some "€" }),
    ("BTC", { code := "BTC", precision := 8, name := "Bitcoin",
              type := .CRYPTO, symbol := some "₿" }),
    ("ETH", ethereum_like "ETH" "Ether"),
    ("ELLA", ethereum_like "ELLA" "Ellaism Token"),
    ("EWT", ethereum_like "EWT" "Energy Web Token"),
    ("POA", ethereum_like "POA" "POA Network Token"),
    ("DAI", ethereum_like "DAI" "Dai Token"),
    ("TLN", ethereum_like "TLN" "Trustlines Network Token"),
    ("PAN", ethereum_like "PAN" "Panvala Token"),
    ("LINK", ethereum_like "LINK" "Link Token") ]

/-- The US Dollar entry of the registry. -/
def USD : Currency :=
  { code := "USD", precision := 8, name := "US Dollar",
    type := .FIAT, symbol := some "$" }

/-- The Ether entry of the registry. -/
def ETH : Currency :=
  ethereum_like "ETH" "Ether"

/-- Embedding of `Currency.from_code`: `Currency(**CURRENCIES[code.upper()])`.
A missing key raises `KeyError` with the uppercased code; a hit passes the
full field set through `restore_from_code` unchanged and builds the
registered currency. -/
def Currency.from_code (code : String) : Except Err Currency :=
  match CURRENCIES.lookup code.toUpper with
  | some c => .ok c
  | none => .error (.keyError code.toUpper)

/-- Serialize currency: `Currency.dict` emits only `{"code": self.code}`,
modelled by that single code string. -/
def Currency.dict (c : Currency) : String :=
  c.code

/-- Deserializing the compact form `{"code": s}`: the keys are exactly
`["code"]`, so the root validator `restore_from_code` replaces the values
with `CURRENCIES[s]` — no case canonicalization — raising `KeyError` when
the code is not a registry key; the resulting full field set then builds
the registered currency. -/
def Currency.deserialize (s : String) : Except Err Currency :=
  match CURRENCIES.lookup s with
  | some c => .ok c
  | none => .error (.keyError s)

/-- The fraction registry `FRACTIONS`: name to exact decimal multiplier. -/
def FRACTIONS : List (String × ℚ) :=
  [ ("base", 1),
    ("wei", 1 / 10 ^ 18),
    ("gwei", 1 / 10 ^ 9),
    ("satoshi", 1 / 10 ^ 8) ]

/-- Currency fraction: the pydantic frozen model `CurrencyFraction`. -/
structure CurrencyFraction where
  currency : Currency
  name : String
  multiplier : ℚ
deriving DecidableEq

/-- Return a currency fraction (`Currency.get_fraction`): raises
`RuntimeError` when the name is not a key of `FRACTIONS`, otherwise binds
the registered multiplier to this currency. -/
def Currency.get_fraction (c : Currency) (fraction_name : String) :
    Except Err CurrencyFraction :=
  match FRACTIONS.lookup fraction_name with
  | some m => .ok ⟨c, fraction_name, m⟩
  | none => .error (.runtimeError fraction_name)

/-- Return currency amount (`CurrencyFraction.get_amount`):
`self.currency.get_amount(Decimal(amount) * self.multiplier)`, where the
Decimal multiplication rounds the exact product to the 28-digit context
precision (`decMul`).  The `__mul__` and `__rmul__` operators of
`CurrencyFraction` are this same call. -/
def CurrencyFraction.get_amount (f : CurrencyFraction) (amount : ℚ) :
    Except Err CurrencyAmount :=
  f.currency.get_amount (decMul amount f.multiplier)

/-- Embedding of `CurrencyAmount.__add__`: the gate
`self.currency == other.currency` is the pydantic v1 model equality, which
compares the overridden `dict()` forms and hence only the codes; a failed
gate raises `TypeError` carrying both currencies, and success rebuilds an
amount from the exact sum (requantized by the validator). -/
def CurrencyAmount.add (a b : CurrencyAmount) : Except Err CurrencyAmount :=
  if a.currency.dict = b.currency.dict then
    CurrencyAmount.construct a.currency (a.amount + b.amount)
  else .error (.currencyMismatch a.currency b.currency)

/-- Embedding of `CurrencyAmount.__sub__`: same `dict()`-based currency
gate as `__add__`; a failed gate raises `TypeError` carrying both, and
success rebuilds an amount from the exact difference. -/
def CurrencyAmount.sub (a b : CurrencyAmount) : Except Err CurrencyAmount :=
  if a.currency.dict = b.currency.dict then
    CurrencyAmount.construct a.currency (a.amount - b.amount)
  else .error (.currencyMismatch a.currency b.currency)

/-- Embedding of `CurrencyAmount.__mul__` for an `int` or `Decimal`
scalar: `CurrencyAmount(amount=other * self.amount, currency=self.currency)`. -/
def CurrencyAmount.mul (a : CurrencyAmount) (other : ℚ) :
    Except Err CurrencyAmount :=
  CurrencyAmount.construct a.currency (other * a.amount)

/-- Embedding of `CurrencyAmount.__truediv__`: `self.amount / other`.
Decimal division by zero raises `DivisionByZero` for a nonzero dividend and
`InvalidOperation` (division undefined) for `0 / 0`. -/
def CurrencyAmount.truediv (a : CurrencyAmount) (other : ℚ) :
    Except Err CurrencyAmount :=
  if other = 0 then
    if a.amount = 0 then .error .invalidOperation else .error .divisionByZero
  else CurrencyAmount.construct a.currency (a.amount / other)

/-- Truncation toward zero, the rounding of the Decimal divide-integer
operation that implements `//`. -/
def truncQ (q : ℚ) : ℤ :=
  if 0 ≤ q then ⌊q⌋ else ⌈q⌉

/-- Embedding of `CurrencyAmount.__floordiv__`: `self.amount // other`.
Decimal `//` is divide-integer (truncation toward zero); by-zero cases err
as in `truediv`, and a quotient needing more than `contextPrec` digits
signals `InvalidOperation`. -/
def CurrencyAmount.floordiv (a : CurrencyAmount) (other : ℚ) :
    Except Err CurrencyAmount :=
  if other = 0 then
    if a.amount = 0 then .error .invalidOperation else .error .divisionByZero
  else
    if (truncQ (a.amount / other)).natAbs < 10 ^ contextPrec then
      CurrencyAmount.construct a.currency ((truncQ (a.amount / other) : ℚ))
    else .error .invalidOperation

/-- Embedding of `CurrencyAmount.from_fraction`: look the fraction up,
quantize the Decimal product `amount * fraction.multiplier` — the exact
product rounded to the 28-digit context precision (`decMul`) — to
`currency.minimal_value`, and build the amount (whose validator quantizes
once more). -/
def CurrencyAmount.from_fraction (amount : ℚ) (currency : Currency)
    (fraction_name : String) : Except Err CurrencyAmount := do
  let fraction ← currency.get_fraction fraction_name
  let amount_base ← quantizeDec (decMul amount fraction.multiplier)
    currency.precision
  CurrencyAmount.construct currency amount_base

/-- Embedding of `CurrencyAmount.as_fraction`: `self.amount /
fraction.multiplier`, with no further quantization. -/
def CurrencyAmount.as_fraction (a : CurrencyAmount) (fraction_name : String) :
    Except Err ℚ := do
  let fraction ← a.currency.get_fraction fraction_name
  pure (a.amount / fraction.multiplier)

/-- The amount lies on the quantization grid of its currency: it is an
integer multiple of `minimal_value`, i.e. has at most `precision`
fractional digits. -/
def onGrid (a : CurrencyAmount) : Prop :=
  ∃ n : ℤ, a.amount = (n : ℚ) / 10 ^ a.currency.precision

/-- Rounding an integer changes nothing. -/
theorem roundHalfEven_intCast (n : ℤ) : roundHalfEven (n : ℚ) = n := by
  unfold roundHalfEven
  rw [Int.fract_intCast, Int.floor_intCast]
  norm_num

/-- Half-to-even rounding moves a rational by at most one half. -/
theorem abs_roundHalfEven_sub (q : ℚ) : |(roundHalfEven q : ℚ) - q| ≤ 1 / 2 := by
  have h0 := Int.fract_nonneg q
  have h1 := Int.fract_lt_one q
  have hsum := Int.floor_add_fract q
  unfold roundHalfEven
  split_ifs with ha hb hc
  · have he : (⌊q⌋ : ℚ) - q = -Int.fract q := by linarith
    rw [he, abs_neg, abs_of_nonneg h0]
    linarith
  · have he : ((⌊q⌋ + 1 : ℤ) : ℚ) - q = 1 - Int.fract q := by push_cast; linarith
    rw [he, abs_of_nonneg (by linarith)]
    linarith
  · have h12 : Int.fract q = 1 / 2 := le_antisymm (not_lt.1 hb) (not_lt.1 ha)
    have he : (⌊q⌋ : ℚ) - q = -Int.fract q := by linarith
    rw [he, abs_neg, abs_of_nonneg h0]
    linarith
  · have h12 : Int.fract q = 1 / 2 := le_antisymm (not_lt.1 hb) (not_lt.1 ha)
    have he : ((⌊q⌋ + 1 : ℤ) : ℚ) - q = 1 - Int.fract q := by push_cast; linarith
    rw [he, abs_of_nonneg (by linarith)]
    linarith

/-- Quantization is the identity on a value already carrying an integer
coefficient that fits in the context precision. -/
theorem quantizeDec_eq_ok (x : ℚ) (p : ℕ) (n : ℤ) (hx : x * 10 ^ p = (n : ℚ))
    (hn : n.natAbs < 10 ^ contextPrec) : quantizeDec x p = .ok x := by
  have hp : (10 : ℚ) ^ p ≠ 0 := by positivity
  unfold quantizeDec
  rw [hx, roundHalfEven_intCast, if_pos hn]
  congr 1
  rw [eq_comm, eq_div_iff hp]
  exact hx

/-- Quantization signals InvalidOperation on an integer coefficient that
does not fit in the context precision. -/
theorem quantizeDec_eq_err (x : ℚ) (p : ℕ) (n : ℤ) (hx : x * 10 ^ p = (n : ℚ))
    (hn : ¬n.natAbs < 10 ^ contextPrec) :
    quantizeDec x p = .error .invalidOperation := by
  unfold quantizeDec
  rw [hx, roundHalfEven_intCast, if_neg hn]

/-- A successful quantization yields an integer coefficient that fits in the
context precision. -/
theorem quantizeDec_ok_int {x : ℚ} {p : ℕ} {q : ℚ}
    (h : quantizeDec x p = .ok q) :
    ∃ n : ℤ, q * 10 ^ p = (n : ℚ) ∧ n.natAbs < 10 ^ contextPrec := by
  have hp : (10 : ℚ) ^ p ≠ 0 := by positivity
  unfold quantizeDec at h
  split_ifs at h with hn
  · simp only [Except.ok.injEq] at h
    exact ⟨roundHalfEven (x * 10 ^ p), by rw [← h, div_mul_cancel₀ _ hp], hn⟩

/-- A successful quantization moves the value by at most half of the grid
step. -/
theorem quantizeDec_ok_close {x : ℚ} {p : ℕ} {q : ℚ}
    (h : quantizeDec x p = .ok q) : |q - x| ≤ 1 / (2 * 10 ^ p) := by
  have hp : (0 : ℚ) < 10 ^ p := by positivity
  unfold quantizeDec at h
  split_ifs at h with hn
  · simp only [Except.ok.injEq] at h
    have key := abs_roundHalfEven_sub (x * 10 ^ p)
    have he : q - x = ((roundHalfEven (x * 10 ^ p) : ℚ) - x * 10 ^ p) / 10 ^ p := by
      rw [← h]; field_simp; ring
    rw [he, abs_div, abs_of_pos hp, div_le_iff₀ hp]
    calc |(roundHalfEven (x * 10 ^ p) : ℚ) - x * 10 ^ p| ≤ 1 / 2 := key
    _ = 1 / (2 * 10 ^ p) * 10 ^ p := by field_simp

/-- Quantization is idempotent: requantizing a quantized value is a no-op. -/
theorem quantizeDec_idem {x : ℚ} {p : ℕ} {q : ℚ}
    (h : quantizeDec x p = .ok q) : quantizeDec q p = .ok q := by
  obtain ⟨n, hq, hn⟩ := quantizeDec_ok_int h
  exact quantizeDec_eq_ok q p n hq hn

/-- Characterization of a successful amount construction. -/
theorem construct_ok_spec {c : Currency} {x : ℚ} {a : CurrencyAmount}
    (h : CurrencyAmount.construct c x = .ok a) :
    a.currency = c ∧ quantizeDec x c.precision = .ok a.amount := by
  unfold CurrencyAmount.construct at h
  cases hq : quantizeDec x c.precision with
  | ok q =>
    rw [hq] at h
    simp only [Except.map, Except.ok.injEq] at h
    rw [← h]
    exact ⟨rfl, rfl⟩
  | error e => rw [hq] at h; exact absurd h (by simp [Except.map])

/-- Construction succeeds exactly when quantization does. -/
theorem construct_eq_ok {c : Currency} {x q : ℚ}
    (h : quantizeDec x c.precision = .ok q) :
    CurrencyAmount.construct c x = .ok ⟨c, q⟩ := by
  unfold CurrencyAmount.construct
  rw [h]
  rfl

/-- Construction fails exactly when quantization does. -/
theorem construct_eq_err {c : Currency} {x : ℚ} {e : Err}
    (h : quantizeDec x c.precision = .error e) :
    CurrencyAmount.construct c x = .error e := by
  unfold CurrencyAmount.construct
  rw [h]
  rfl

/-- Every successfully constructed amount lies on the grid of its
currency. -/
theorem construct_ok_onGrid {c : Currency} {x : ℚ} {a : CurrencyAmount}
    (h : CurrencyAmount.construct c x = .ok a) : onGrid a := by
  obtain ⟨hc, hq⟩ := construct_ok_spec h
  obtain ⟨n, hqn, -⟩ := quantizeDec_ok_int hq
  refine ⟨n, ?_⟩
  rw [hc, eq_div_iff (by positivity : ((10 : ℚ) ^ c.precision) ≠ 0)]
  exact hqn

/-- Value produced by a successful quantization. -/
theorem quantizeDec_ok_val {x : ℚ} {p : ℕ} {q : ℚ}
    (h : quantizeDec x p = .ok q) :
    q = (roundHalfEven (x * 10 ^ p) : ℚ) / 10 ^ p := by
  unfold quantizeDec at h
  split_ifs at h with hn
  simp only [Except.ok.injEq] at h
  exact h.symm

/-- C1: every construction path of a CurrencyAmount (get_amount, the
zero/one helpers, multiplication of a scalar by a currency, fraction
get_amount, from_fraction, add, subtract, multiply, divide, floor-divide)
stores an amount quantized to the currency grid of 10 ^ (-precision); the
quantization rounds half to even. -/
theorem C1_every_path_quantized :
    (∀ c x a, Currency.get_amount c x = .ok a → onGrid a) ∧
    (∀ c a, Currency.zero c = .ok a → onGrid a) ∧
    (∀ c a, Currency.one c = .ok a → onGrid a) ∧
    (∀ c x a, Currency.mul c x = .ok a → onGrid a) ∧
    (∀ f x a, CurrencyFraction.get_amount f x = .ok a → onGrid a) ∧
    (∀ x c s a, CurrencyAmount.from_fraction x c s = .ok a → onGrid a) ∧
    (∀ a b r, CurrencyAmount.add a b = .ok r → onGrid r) ∧
    (∀ a b r, CurrencyAmount.sub a b = .ok r → onGrid r) ∧
    (∀ a x r, CurrencyAmount.mul a x = .ok r → onGrid r) ∧
    (∀ a x r, CurrencyAmount.truediv a x = .ok r → onGrid r) ∧
    (∀ a x r, CurrencyAmount.floordiv a x = .ok r → onGrid r) ∧
    (∀ c x a, Currency.get_amount c x = .ok a →
      a.amount = (roundHalfEven (x * 10 ^ c.precision) : ℚ) / 10 ^ c.precision) := by
  refine ⟨fun c x a h => construct_ok_onGrid h,
    fun c a h => construct_ok_onGrid h,
    fun c a h => construct_ok_onGrid h,
    fun c x a h => construct_ok_onGrid h,
    fun f x a h => construct_ok_onGrid h,
    ?_, ?_, ?_,
    fun a x r h => construct_ok_onGrid h,
    ?_, ?_,
    fun c x a h => quantizeDec_ok_val (construct_ok_spec h).2⟩
  · intro x c s a h
    unfold CurrencyAmount.from_fraction at h
    cases hl : Currency.get_fraction c s with
    | ok f =>
      rw [hl] at h
      simp only [bind, Except.bind] at h
      cases hq : quantizeDec (decMul x f.multiplier) c.precision with
      | ok y =>
        rw [hq] at h
        exact construct_ok_onGrid h
      | error e => rw [hq] at h; exact absurd h (by simp)
    | error e => rw [hl] at h; exact absurd h (by simp [bind, Except.bind])
  · intro a b r h
    unfold CurrencyAmount.add at h
    split_ifs at h
    exact construct_ok_onGrid h
  · intro a b r h
    unfold CurrencyAmount.sub at h
    split_ifs at h
    exact construct_ok_onGrid h
  · intro a x r h
    unfold CurrencyAmount.truediv at h
    split_ifs at h
    exact construct_ok_onGrid h
  · intro a x r h
    unfold CurrencyAmount.floordiv at h
    split_ifs at h
    exact construct_ok_onGrid h

/-- C10: the two construction paths for a fraction-denominated amount
agree: from_fraction equals looking up the fraction and calling its
get_amount, because quantizing twice to the same grid is the same as
quantizing once, errors included. -/
theorem C10_from_fraction_eq_fraction_get_amount
    (amount : ℚ) (currency : Currency) (fraction_name : String) :
    CurrencyAmount.from_fraction amount currency fraction_name =
      (currency.get_fraction fraction_name).bind
        fun f => f.get_amount amount := by
  unfold CurrencyAmount.from_fraction Currency.get_fraction
  cases hl : FRACTIONS.lookup fraction_name with
  | some m =>
    simp only [bind, Except.bind]
    show (quantizeDec (decMul amount m) currency.precision).bind
        (fun amount_base => CurrencyAmount.construct currency amount_base) =
      CurrencyAmount.construct currency (decMul amount m)
    cases hq : quantizeDec (decMul amount m) currency.precision with
    | ok q =>
      show CurrencyAmount.construct currency q =
        CurrencyAmount.construct currency (decMul amount m)
      rw [construct_eq_ok (quantizeDec_idem hq), construct_eq_ok hq]
    | error e =>
      show Except.error e = CurrencyAmount.construct currency (decMul amount m)
      rw [construct_eq_err hq]
  | none => rfl

/-- C4 amended: addition and subtraction gate on the pydantic equality of
the two currencies, which compares the overridden dict() forms and hence
only the codes: the operations succeed only when the codes are equal, and
mismatched codes raise the TypeError carrying both currencies, never a
numeric result. -/
theorem C4_arith_requires_equal_code (a b : CurrencyAmount) :
    (a.currency.code ≠ b.currency.code →
      CurrencyAmount.add a b = .error (.currencyMismatch a.currency b.currency) ∧
      CurrencyAmount.sub a b = .error (.currencyMismatch a.currency b.currency)) ∧
    (∀ r, CurrencyAmount.add a b = .ok r → a.currency.code = b.currency.code) ∧
    (∀ r, CurrencyAmount.sub a b = .ok r → a.currency.code = b.currency.code) := by
  unfold CurrencyAmount.add CurrencyAmount.sub Currency.dict
  by_cases hc : a.currency.code = b.currency.code
  · rw [if_pos hc, if_pos hc]
    exact ⟨fun h => absurd hc h, fun r _ => hc, fun r _ => hc⟩
  · rw [if_neg hc, if_neg hc]
    exact ⟨fun _ => ⟨rfl, rfl⟩,
      fun r h => absurd h (by simp), fun r h => absurd h (by simp)⟩

/-- C4 counterexample: a currency sharing the USD code but differing from
USD in every other stored field is not equal to USD by value, yet adding
an amount of it to a USD amount succeeds with a numeric result, because
the program compares currencies through the code-only dict() form. -/
theorem C4_counterexample :
    USD ≠ ({ code := "USD", precision := 18, name := "Elbonian Dollar",
             type := .CRYPTO, symbol := none } : Currency) ∧
    CurrencyAmount.add ⟨USD, 1⟩
      ⟨{ code := "USD", precision := 18, name := "Elbonian Dollar",
         type := .CRYPTO, symbol := none }, 1⟩ = .ok ⟨USD, 2⟩ := by
  constructor
  · decide
  · unfold CurrencyAmount.add
    split_ifs with h
    · have hq : quantizeDec ((1 : ℚ) + 1) USD.precision = .ok ((1 : ℚ) + 1) :=
        quantizeDec_eq_ok _ _ 200000000 (by norm_num [USD]) (by decide)
      rw [construct_eq_ok hq]
      norm_num
    · exact absurd (by decide) h

/-- C6 amended: dividing or floor-dividing by the scalar zero always fails
and never yields an amount; the error is DivisionByZero for a nonzero
amount but InvalidOperation (division undefined) when the amount is zero. -/
theorem C6_div_by_zero_fails (a : CurrencyAmount) :
    (a.amount ≠ 0 →
      CurrencyAmount.truediv a 0 = .error .divisionByZero ∧
      CurrencyAmount.floordiv a 0 = .error .divisionByZero) ∧
    (a.amount = 0 →
      CurrencyAmount.truediv a 0 = .error .invalidOperation ∧
      CurrencyAmount.floordiv a 0 = .error .invalidOperation) ∧
    (∀ r, CurrencyAmount.truediv a 0 ≠ .ok r) ∧
    (∀ r, CurrencyAmount.floordiv a 0 ≠ .ok r) := by
  unfold CurrencyAmount.truediv CurrencyAmount.floordiv
  rw [if_pos (rfl : (0 : ℚ) = 0)]
  by_cases h0 : a.amount = 0
  · rw [if_pos h0]
    exact ⟨fun h => absurd h0 h, fun _ => ⟨rfl, rfl⟩,
      fun r h => by simp at h, fun r h => by simp at h⟩
  · rw [if_neg h0]
    exact ⟨fun _ => ⟨rfl, rfl⟩, fun h => absurd h h0,
      fun r h => by simp at h, fun r h => by simp at h⟩

/-- C6 counterexample: the zero USD amount is constructible, dividing it by
zero raises InvalidOperation, and InvalidOperation is not the
DivisionByZero error. -/
theorem C6_counterexample :
    Currency.zero USD = .ok ⟨USD, 0⟩ ∧
    CurrencyAmount.truediv ⟨USD, 0⟩ 0 = .error .invalidOperation ∧
    CurrencyAmount.floordiv ⟨USD, 0⟩ 0 = .error .invalidOperation ∧
    Err.invalidOperation ≠ Err.divisionByZero := by
  refine ⟨?_, ?_, ?_, by decide⟩
  · exact construct_eq_ok (quantizeDec_eq_ok 0 USD.precision 0 (by norm_num) (by decide))
  · simp [CurrencyAmount.truediv]
  · simp [CurrencyAmount.floordiv]

/-- C2: serializing any registry currency emits only its code, and
deserializing that compact form through the registry restores the same
currency value. -/
theorem C2_serialize_roundtrip :
    ∀ p ∈ CURRENCIES, Currency.deserialize (Currency.dict p.2) = .ok p.2 := by
  intro p hp
  fin_cases hp <;> decide

/-- C2 witness at the USD registry entry. -/
theorem C2_serialize_roundtrip_witness :
    Currency.deserialize (Currency.dict USD) = .ok USD :=
  C2_serialize_roundtrip ("USD", USD) (by decide)

/-- C8: code lookup canonicalizes its input to uppercase before consulting
the registry and raises KeyError on a miss; fraction lookup raises
RuntimeError for an unregistered name and never returns a default. -/
theorem C8_unknown_lookups :
    (∀ s c, CURRENCIES.lookup s.toUpper = some c →
      Currency.from_code s = .ok c) ∧
    (∀ s, CURRENCIES.lookup s.toUpper = none →
      Currency.from_code s = .error (.keyError s.toUpper)) ∧
    (∀ s c, Currency.from_code s = .ok c →
      CURRENCIES.lookup s.toUpper = some c) ∧
    (∀ (c : Currency) s m, FRACTIONS.lookup s = some m →
      Currency.get_fraction c s = .ok ⟨c, s, m⟩) ∧
    (∀ (c : Currency) s, FRACTIONS.lookup s = none →
      Currency.get_fraction c s = .error (.runtimeError s)) ∧
    (∀ (c : Currency) s f, Currency.get_fraction c s = .ok f →
      FRACTIONS.lookup s ≠ none) := by
  refine ⟨?_, ?_, ?_, ?_, ?_, ?_⟩
  · intro s c h
    unfold Currency.from_code
    rw [h]
  · intro s h
    unfold Currency.from_code
    rw [h]
  · intro s c h
    unfold Currency.from_code at h
    cases hl : CURRENCIES.lookup s.toUpper with
    | some c2 =>
      rw [hl] at h
      simp only [Except.ok.injEq] at h
      rw [h]
    | none => rw [hl] at h; exact absurd h (by simp)
  · intro c s m h
    unfold Currency.get_fraction
    rw [h]
  · intro c s h
    unfold Currency.get_fraction
    rw [h]
  · intro c s f h hl
    unfold Currency.get_fraction at h
    rw [hl] at h
    exact absurd h (by simp)

/-- C8 witness: lowercase input finds USD, the unknown code ZZZ raises
KeyError, and the unregistered fraction name mwei raises RuntimeError. -/
theorem C8_unknown_lookups_witness :
    Currency.from_code "usd" = .ok USD ∧
    Currency.from_code "ZZZ" = .error (.keyError "ZZZ") ∧
    Currency.get_fraction ETH "mwei" = .error (.runtimeError "mwei") := by
  refine ⟨?_, ?_, ?_⟩
  · exact C8_unknown_lookups.1 "usd" USD
      (by rw [(by simp [String.toUpper, String.map_eq] :
        "usd".toUpper = "USD")]; decide)
  · have h := C8_unknown_lookups.2.1 "ZZZ"
      (by rw [(by simp [String.toUpper, String.map_eq] :
        "ZZZ".toUpper = "ZZZ")]; decide)
    rw [(by simp [String.toUpper, String.map_eq] :
      "ZZZ".toUpper = "ZZZ")] at h
    exact h
  · exact C8_unknown_lookups.2.2.2.2.1 ETH "mwei" (by decide)

/-- Case-sensitivity of the compact deserialization against
case-insensitivity of from_code, over one registry entry. -/
theorem deserialize_vs_from_code_aux (key low : String) (c : Currency)
    (h1 : key.toLower = low) (h2 : low.toUpper = key)
    (h3 : CURRENCIES.lookup low = none)
    (h4 : CURRENCIES.lookup key = some c) :
    Currency.deserialize key.toLower = .error (.keyError key.toLower) ∧
    Currency.from_code key.toLower = .ok c := by
  constructor
  · unfold Currency.deserialize
    rw [h1, h3]
  · unfold Currency.from_code
    rw [h1, h2, h4]

/-- C9: for every registry entry the compact-form deserialization of the
lowercased code raises KeyError (restore_from_code looks the code up
without uppercasing) while from_code of the same lowercased code succeeds. -/
theorem C9_deserialize_case_sensitive :
    ∀ p ∈ CURRENCIES,
      Currency.deserialize (p.1.toLower) = .error (.keyError (p.1.toLower)) ∧
      Currency.from_code (p.1.toLower) = .ok p.2 := by
  intro p hp
  fin_cases hp
  · exact deserialize_vs_from_code_aux "USD" "usd" _
      (by simp [String.toLower, String.map_eq])
      (by simp [String.toUpper, String.map_eq]) (by decide) (by decide)
  · exact deserialize_vs_from_code_aux "EUR" "eur" _
      (by simp [String.toLower, String.map_eq])
      (by simp [String.toUpper, String.map_eq]) (by decide) (by decide)
  · exact deserialize_vs_from_code_aux "BTC" "btc" _
      (by simp [String.toLower, String.map_eq])
      (by simp [String.toUpper, String.map_eq]) (by decide) (by decide)
  · exact deserialize_vs_from_code_aux "ETH" "eth" _
      (by simp [String.toLower, String.map_eq])
      (by simp [String.toUpper, String.map_eq]) (by decide) (by decide)
  · exact deserialize_vs_from_code_aux "ELLA" "ella" _
      (by simp [String.toLower, String.map_eq])
      (by simp [String.toUpper, String.map_eq]) (by decide) (by decide)
  · exact deserialize_vs_from_code_aux "EWT" "ewt" _
      (by simp [String.toLower, String.map_eq])
      (by simp [String.toUpper, String.map_eq]) (by decide) (by decide)
  · exact deserialize_vs_from_code_aux "POA" "poa" _
      (by simp [String.toLower, String.map_eq])
      (by simp [String.toUpper, String.map_eq]) (by decide) (by decide)
  · exact deserialize_vs_from_code_aux "DAI" "dai" _
      (by simp [String.toLower, String.map_eq])
      (by simp [String.toUpper, String.map_eq]) (by decide) (by decide)
  · exact deserialize_vs_from_code_aux "TLN" "tln" _
      (by simp [String.toLower, String.map_eq])
      (by simp [String.toUpper, String.map_eq]) (by decide) (by decide)
  · exact deserialize_vs_from_code_aux "PAN" "pan" _
      (by simp [String.toLower, String.map_eq])
      (by simp [String.toUpper, String.map_eq]) (by decide) (by decide)
  · exact deserialize_vs_from_code_aux "LINK" "link" _
      (by simp [String.toLower, String.map_eq])
      (by simp [String.toUpper, String.map_eq]) (by decide) (by decide)

/-- C9 witness at the USD registry entry. -/
theorem C9_deserialize_case_sensitive_witness :
    Currency.deserialize ("USD".toLower) = .error (.keyError ("USD".toLower)) ∧
    Currency.from_code ("USD".toLower) = .ok USD :=
  C9_deserialize_case_sensitive ("USD", USD) (by decide)

/-- C5 amended: get_amount succeeds exactly for the inputs whose rounded
coefficient at the currency precision fits within the 28-digit context
precision; quantize signals InvalidOperation beyond that. -/
theorem C5_get_amount_succeeds_iff (c : Currency) (x : ℚ) :
    (∃ a, Currency.get_amount c x = .ok a) ↔
      (roundHalfEven (x * 10 ^ c.precision)).natAbs < 10 ^ contextPrec := by
  constructor
  · rintro ⟨a, ha⟩
    have hq := (construct_ok_spec ha).2
    unfold quantizeDec at hq
    split_ifs at hq with hn
    exact hn
  · intro hn
    refine ⟨⟨c, (roundHalfEven (x * 10 ^ c.precision) : ℚ) / 10 ^ c.precision⟩, ?_⟩
    unfold Currency.get_amount CurrencyAmount.construct quantizeDec
    rw [if_pos hn]
    rfl

/-- C5 counterexample: for USD (precision 8) the finite decimal input
10 ^ 20 makes the quantized coefficient 10 ^ 28, one digit beyond the
context precision, so construction fails with InvalidOperation. -/
theorem C5_counterexample :
    Currency.get_amount USD ((10 : ℚ) ^ 20) = .error .invalidOperation :=
  construct_eq_err (quantizeDec_eq_err ((10 : ℚ) ^ 20) 8 (10 ^ 28)
    (by norm_num) (by decide))

/-- C7 amended: for two amounts of the same currency whose amounts lie on
the currency grid, addition returns the shared currency and the exact
decimal sum (requantization is a no-op) provided the coefficient of the
sum still fits in the 28-digit context precision. -/
theorem C7_add_exact (a b : CurrencyAmount) (n m : ℤ)
    (hc : a.currency = b.currency)
    (ha : a.amount * 10 ^ a.currency.precision = (n : ℚ))
    (hb : b.amount * 10 ^ a.currency.precision = (m : ℚ))
    (hfit : (n + m).natAbs < 10 ^ contextPrec) :
    CurrencyAmount.add a b = .ok ⟨a.currency, a.amount + b.amount⟩ := by
  unfold CurrencyAmount.add
  rw [if_pos (congrArg Currency.dict hc)]
  refine construct_eq_ok (quantizeDec_eq_ok _ _ (n + m) ?_ hfit)
  push_cast
  rw [add_mul, ha, hb]

/-- C7 witness: 1.50 USD plus 2.25 USD is exactly 3.75 USD. -/
theorem C7_add_exact_witness :
    CurrencyAmount.add ⟨USD, 3 / 2⟩ ⟨USD, 9 / 4⟩ = .ok ⟨USD, 15 / 4⟩ := by
  have h := C7_add_exact ⟨USD, 3 / 2⟩ ⟨USD, 9 / 4⟩ 150000000 225000000 rfl
    (by norm_num [USD]) (by norm_num [USD]) (by decide)
  rw [(by norm_num : (3 : ℚ) / 2 + 9 / 4 = 15 / 4)] at h
  exact h

/-- C7 counterexample: two constructible USD amounts of 9 * 10 ^ 19 each
add to a sum whose coefficient needs 29 digits, so the addition of two
same-currency amounts fails with InvalidOperation. -/
theorem C7_counterexample :
    Currency.get_amount USD ((9 : ℚ) * 10 ^ 19) = .ok ⟨USD, (9 : ℚ) * 10 ^ 19⟩ ∧
    CurrencyAmount.add ⟨USD, (9 : ℚ) * 10 ^ 19⟩ ⟨USD, (9 : ℚ) * 10 ^ 19⟩ =
      .error .invalidOperation := by
  constructor
  · exact construct_eq_ok (quantizeDec_eq_ok _ 8 (9 * 10 ^ 27)
      (by norm_num) (by decide))
  · unfold CurrencyAmount.add
    rw [if_pos (rfl :
      (⟨USD, (9 : ℚ) * 10 ^ 19⟩ : CurrencyAmount).currency.dict =
      (⟨USD, (9 : ℚ) * 10 ^ 19⟩ : CurrencyAmount).currency.dict)]
    exact construct_eq_err (quantizeDec_eq_err _ 8 (18 * 10 ^ 27)
      (by norm_num) (by decide))

/-- Context rounding is the identity on zero and on every value that is an
integer multiple of the position 27 places below its adjusted exponent. -/
theorem decRound_eq_self (z : ℚ) (n : ℤ)
    (hz : z * 10 ^ (27 - Int.log 10 |z|) = (n : ℚ)) : decRound z = z := by
  unfold decRound
  split_ifs with h0
  · rw [h0]
  · have hP : (0 : ℚ) < 10 ^ (27 - Int.log 10 |z|) := zpow_pos (by norm_num) _
    rw [hz, roundHalfEven_intCast, ← hz]
    exact mul_div_cancel_right₀ z (ne_of_gt hP)

/-- Context rounding moves a value by at most half of one unit in its 28th
significant digit, i.e. by at most half of the value times 10 ^ (-27). -/
theorem decRound_close (z : ℚ) :
    |decRound z - z| ≤ |z| * (10 : ℚ) ^ (-27 : ℤ) / 2 := by
  unfold decRound
  split_ifs with h0
  · rw [h0]
    simp
  · have habs : (0 : ℚ) < |z| := abs_pos.2 h0
    have h10 : ((10 : ℕ) : ℚ) = (10 : ℚ) := by norm_num
    have hle : (10 : ℚ) ^ Int.log 10 |z| ≤ |z| := by
      have h : ((10 : ℕ) : ℚ) ^ Int.log 10 |z| ≤ |z| :=
        Int.zpow_log_le_self (by norm_num) habs
      rwa [h10] at h
    have hP : (0 : ℚ) < 10 ^ (27 - Int.log 10 |z|) := zpow_pos (by norm_num) _
    have key := abs_roundHalfEven_sub (z * 10 ^ (27 - Int.log 10 |z|))
    have hsplit :
        (roundHalfEven (z * 10 ^ (27 - Int.log 10 |z|)) : ℚ) /
            10 ^ (27 - Int.log 10 |z|) - z =
          ((roundHalfEven (z * 10 ^ (27 - Int.log 10 |z|)) : ℚ) -
            z * 10 ^ (27 - Int.log 10 |z|)) / 10 ^ (27 - Int.log 10 |z|) := by
      field_simp
      try ring
    rw [hsplit, abs_div, abs_of_pos hP, div_le_iff₀ hP]
    have hprod : (10 : ℚ) ^ Int.log 10 |z| * (10 : ℚ) ^ (-27 : ℤ) *
        (10 : ℚ) ^ (27 - Int.log 10 |z|) = 1 := by
      rw [← zpow_add₀ (by norm_num : (10 : ℚ) ≠ 0),
        ← zpow_add₀ (by norm_num : (10 : ℚ) ≠ 0),
        show Int.log 10 |z| + -27 + (27 - Int.log 10 |z|) = 0 from by ring,
        zpow_zero]
    calc |(roundHalfEven (z * 10 ^ (27 - Int.log 10 |z|)) : ℚ) -
          z * 10 ^ (27 - Int.log 10 |z|)| ≤ 1 / 2 := key
    _ = (10 : ℚ) ^ Int.log 10 |z| * (10 : ℚ) ^ (-27 : ℤ) / 2 *
          10 ^ (27 - Int.log 10 |z|) := by
        rw [div_mul_eq_mul_div, hprod]
    _ ≤ |z| * (10 : ℚ) ^ (-27 : ℤ) / 2 * 10 ^ (27 - Int.log 10 |z|) := by
        gcongr

/-- Every registered fraction multiplier is positive. -/
theorem FRACTIONS_pos {s : String} {m : ℚ} (h : FRACTIONS.lookup s = some m) :
    0 < m := by
  unfold FRACTIONS at h
  simp only [List.lookup] at h
  split at h
  · simp only [Option.some.injEq] at h
    rw [← h]
    norm_num
  · split at h
    · simp only [Option.some.injEq] at h
      rw [← h]
      positivity
    · split at h
      · simp only [Option.some.injEq] at h
        rw [← h]
        positivity
      · split at h
        · simp only [Option.some.injEq] at h
          rw [← h]
          positivity
        · exact absurd h (by simp)

/-- C3: converting a value of fraction units into a base-unit amount and
back returns the value up to the currency precision: the round-trip error
is at most half of minimal_value rescaled by the fraction multiplier, plus
half a unit in the 28th significant digit of the product coming from the
context rounding of the Decimal multiplication. -/
theorem C3_fraction_roundtrip (c : Currency) (fraction_name : String)
    (m v : ℚ) (a : CurrencyAmount)
    (hm : FRACTIONS.lookup fraction_name = some m)
    (ha : CurrencyAmount.from_fraction v c fraction_name = .ok a) :
    ∃ r, CurrencyAmount.as_fraction a fraction_name = .ok r ∧
      |r - v| ≤ c.minimal_value / (2 * m) + |v| * (10 : ℚ) ^ (-27 : ℤ) / 2 := by
  have hmpos := FRACTIONS_pos hm
  have hm0 : m ≠ 0 := ne_of_gt hmpos
  have hfrac : Currency.get_fraction c fraction_name =
      .ok ⟨c, fraction_name, m⟩ := by
    unfold Currency.get_fraction
    rw [hm]
  unfold CurrencyAmount.from_fraction at ha
  rw [hfrac] at ha
  simp only [bind, Except.bind] at ha
  cases hq : quantizeDec (decMul v m) c.precision with
  | error e => rw [hq] at ha; exact absurd ha (by simp)
  | ok q =>
    rw [hq] at ha
    obtain ⟨hcur, hqa⟩ := construct_ok_spec ha
    have haq : a.amount = q := by
      rw [quantizeDec_idem hq] at hqa
      exact (Except.ok.inj hqa).symm
    have hclose := quantizeDec_ok_close hq
    have hctx : |decMul v m - v * m| ≤ |v * m| * (10 : ℚ) ^ (-27 : ℤ) / 2 :=
      decRound_close (v * m)
    refine ⟨a.amount / m, ?_, ?_⟩
    · unfold CurrencyAmount.as_fraction
      rw [hcur, hfrac]
      rfl
    · rw [haq]
      have hq_vm : |q - v * m| ≤
          1 / (2 * 10 ^ c.precision) + |v * m| * (10 : ℚ) ^ (-27 : ℤ) / 2 := by
        calc |q - v * m| = |(q - decMul v m) + (decMul v m - v * m)| := by
              rw [sub_add_sub_cancel]
        _ ≤ |q - decMul v m| + |decMul v m - v * m| := abs_add _ _
        _ ≤ 1 / (2 * 10 ^ c.precision) + |v * m| * (10 : ℚ) ^ (-27 : ℤ) / 2 :=
              add_le_add hclose hctx
      have hsplit : q / m - v = (q - v * m) / m := by
        field_simp
        try ring
      rw [hsplit, abs_div, abs_of_pos hmpos]
      have habsm : |v * m| = |v| * m := by
        rw [abs_mul, abs_of_pos hmpos]
      calc |q - v * m| / m
          ≤ (1 / (2 * 10 ^ c.precision) +
              |v * m| * (10 : ℚ) ^ (-27 : ℤ) / 2) / m := by
            gcongr
            try exact hq_vm
      _ = c.minimal_value / (2 * m) + |v| * (10 : ℚ) ^ (-27 : ℤ) / 2 := by
            unfold Currency.minimal_value
            rw [habsm]
            generalize (10 : ℚ) ^ (-27 : ℤ) = w
            field_simp
            try ring

/-- Registered multiplier of the gwei fraction. -/
theorem FRACTIONS_lookup_gwei : FRACTIONS.lookup "gwei" = some (1 / 10 ^ 9) := by
  unfold FRACTIONS
  simp [List.lookup]

/-- Evaluation of the headline example: a billion gwei of ETH is one ETH;
the context-rounded product is exactly one. -/
theorem from_fraction_gwei_giga :
    CurrencyAmount.from_fraction ((10 : ℚ) ^ 9) ETH "gwei" = .ok ⟨ETH, 1⟩ := by
  have h1 : ((10 : ℚ) ^ 9) * (1 / 10 ^ 9) = 1 := by norm_num
  have hr1 : decRound (1 : ℚ) = 1 :=
    decRound_eq_self 1 (10 ^ 27)
      (by rw [abs_one, Int.log_one_right]; norm_num)
  have hq1 : quantizeDec 1 ETH.precision = .ok 1 :=
    quantizeDec_eq_ok 1 ETH.precision (10 ^ 18)
      (by norm_num [ETH, ethereum_like]) (by decide)
  unfold CurrencyAmount.from_fraction Currency.get_fraction
  rw [FRACTIONS_lookup_gwei]
  simp only [bind, Except.bind]
  unfold decMul
  rw [h1, hr1, hq1]
  exact construct_eq_ok hq1

/-- C3 witness: the gwei round-trip on ETH at one billion, with the exact
value of as_fraction alongside the bound given by the round-trip theorem. -/
theorem C3_fraction_roundtrip_witness :
    (∃ r, CurrencyAmount.as_fraction ⟨ETH, 1⟩ "gwei" = .ok r ∧
      |r - (10 : ℚ) ^ 9| ≤ ETH.minimal_value / (2 * (1 / 10 ^ 9)) +
        |(10 : ℚ) ^ 9| * (10 : ℚ) ^ (-27 : ℤ) / 2) ∧
    CurrencyAmount.as_fraction ⟨ETH, 1⟩ "gwei" = .ok ((10 : ℚ) ^ 9) := by
  constructor
  · exact C3_fraction_roundtrip ETH "gwei" (1 / 10 ^ 9) ((10 : ℚ) ^ 9) ⟨ETH, 1⟩
      FRACTIONS_lookup_gwei from_fraction_gwei_giga
  · unfold CurrencyAmount.as_fraction Currency.get_fraction
    rw [show (⟨ETH, 1⟩ : CurrencyAmount).currency = ETH from rfl]
    rw [FRACTIONS_lookup_gwei]
    simp only [bind, Except.bind, pure, Except.pure]
    norm_num

/-- C1 witness: a quantized USD amount from get_amount and the one-ETH
helper amount both lie on their currency grids. -/
theorem C1_every_path_quantized_witness :
    onGrid ⟨USD, 3 / 2⟩ ∧ onGrid ⟨ETH, 1⟩ := by
  constructor
  · exact C1_every_path_quantized.1 USD (3 / 2) ⟨USD, 3 / 2⟩
      (construct_eq_ok (quantizeDec_eq_ok (3 / 2) USD.precision 150000000
        (by norm_num [USD]) (by decide)))
  · exact C1_every_path_quantized.2.2.1 ETH ⟨ETH, 1⟩
      (construct_eq_ok (quantizeDec_eq_ok 1 ETH.precision (10 ^ 18)
        (by norm_num [ETH, ethereum_like]) (by decide)))

/-- C4 witness: USD and ETH have different codes, so adding or subtracting
their amounts raises the TypeError carrying both currencies. -/
theorem C4_arith_requires_equal_code_witness :
    CurrencyAmount.add ⟨USD, 1⟩ ⟨ETH, 1⟩ = .error (.currencyMismatch USD ETH) ∧
    CurrencyAmount.sub ⟨USD, 1⟩ ⟨ETH, 1⟩ = .error (.currencyMismatch USD ETH) :=
  (C4_arith_requires_equal_code ⟨USD, 1⟩ ⟨ETH, 1⟩).1 (by decide)

/-- C6 witness: five USD divided or floor-divided by zero raises
DivisionByZero. -/
theorem C6_div_by_zero_fails_witness :
    CurrencyAmount.truediv ⟨USD, 5⟩ 0 = .error .divisionByZero ∧
    CurrencyAmount.floordiv ⟨USD, 5⟩ 0 = .error .divisionByZero :=
  (C6_div_by_zero_fails ⟨USD, 5⟩).1 (by norm_num)

/-- C5 witness: five dollars is well within the context precision, so
get_amount succeeds there by the success characterization. -/
theorem C5_get_amount_succeeds_iff_witness :
    ∃ a, Currency.get_amount USD 5 = .ok a :=
  (C5_get_amount_succeeds_iff USD 5).mpr
    (by rw [(by norm_num [USD] : (5 : ℚ) * 10 ^ USD.precision =
        ((500000000 : ℤ) : ℚ)), roundHalfEven_intCast]; decide)
